import Mathlib

/-!
Verification development for the Endsound repository.

The development shallowly embeds:
* the wire-message validator and socket server state machine from
  `server/socketServer.js`;
* the AudioWorklet Karplus-Strong processor (`KSAudioProcessor`,
  `public/audio-processor.js`);
* the main-thread ScriptProcessor fallback engine from `src/audio.ts`
  (`createScriptProcessorFallback`).

JavaScript numbers are modelled as rationals (exact arithmetic in place of
IEEE doubles); `Math.random()` values are threaded in as explicit inputs;
`Float32Array` delay lines become `List ℚ`.
-/

set_option maxHeartbeats 1000000
set_option maxRecDepth 8000

set_option allowUnsafeReducibility true
attribute [semireducible] Rat.add Rat.mul Rat.inv Rat.sub Rat.ofScientific

/-- A JavaScript value, as far as the validator can observe one: `undefined`,
`null`, booleans, (finite) numbers, strings, and plain objects given as
association lists. -/
inductive JSVal where
  | vUndefined
  | vNull
  | vBool (b : Bool)
  | vNum (q : ℚ)
  | vStr (s : String)
  | vObj (fields : List (String × JSVal))
deriving Repr

/-- JavaScript truthiness: everything is truthy except `undefined`, `null`,
`false`, `0` and the empty string (objects are always truthy). -/
def jsTruthy : JSVal → Bool
  | .vUndefined => false
  | .vNull => false
  | .vBool b => b
  | .vNum q => q ≠ 0
  | .vStr s => s ≠ ""
  | .vObj _ => true

/-- `typeof v === 'object'`: true for plain objects and for `null`. -/
def jsTypeofObject : JSVal → Bool
  | .vNull => true
  | .vObj _ => true
  | _ => false

/-- Property access `v[k]`; absent fields read as `undefined`.  Only ever
applied to values already known to be objects in the embedded code. -/
def jsGet (v : JSVal) (k : String) : JSVal :=
  match v with
  | .vObj fields => (fields.lookup k).getD .vUndefined
  | _ => .vUndefined

/-- Decimal rendering of a JS number.  Exact for integers — the only numeric
values this development ever coerces to strings; for non-integral rationals a
plain `num/den` rendering stands in for JS float formatting (never relied on
by any theorem). -/
def jsNumToString (q : ℚ) : String :=
  if q.den = 1 then toString q.num else toString q

/-- `String(v)` coercion. -/
def jsToString : JSVal → String
  | .vUndefined => "undefined"
  | .vNull => "null"
  | .vBool true => "true"
  | .vBool false => "false"
  | .vNum q => jsNumToString q
  | .vStr s => s
  | .vObj _ => "[object Object]"

/-- The `v || ''` idiom: a falsy value is replaced by the empty string. -/
def jsOrEmptyString (v : JSVal) : JSVal :=
  if jsTruthy v then v else .vStr ""

/-- `s.substring(0, n)`: the first `n` characters of `s` (identity when `s`
is shorter). -/
def jsSubstring (s : String) (n : Nat) : String :=
  String.mk (s.data.take n)

/-- Digit run to a natural number. -/
def digitsToNat (cs : List Char) : Nat :=
  cs.foldl (fun n c => 10 * n + (c.toNat - 48)) 0

/-- `parseFloat` on a string: skip leading whitespace, optional sign, then
the longest prefix of the form `digits`, `digits.digits`, `.digits` or
`digits.` (trailing junk ignored, as in JS); `none` when no digit is found
(JS `NaN`).  Exponent notation and `Infinity` are outside the modelled
fragment (no theorem feeds them in). -/
def parseDecimal (s : String) : Option ℚ :=
  let cs := s.data.dropWhile Char.isWhitespace
  let (neg, cs1) :=
    match cs with
    | '-' :: t => (true, t)
    | '+' :: t => (false, t)
    | _ => (false, cs)
  let intPart := cs1.takeWhile Char.isDigit
  let rest := cs1.dropWhile Char.isDigit
  let fracPart :=
    match rest with
    | '.' :: t => t.takeWhile Char.isDigit
    | _ => []
  if intPart.isEmpty ∧ fracPart.isEmpty then none
  else
    let mag : ℚ :=
      (digitsToNat intPart : ℚ) + (digitsToNat fracPart : ℚ) / ((10 : ℚ) ^ fracPart.length)
    some (if neg then -mag else mag)

/-- `parseFloat(v)`: numbers parse to themselves; strings through
`parseDecimal`; `undefined`, `null`, booleans and plain objects coerce to the
strings `"undefined"`, `"null"`, `"true"`/`"false"`, `"[object Object]"`,
none of which parses (`NaN`). -/
def jsParseFloat : JSVal → Option ℚ
  | .vNum q => some q
  | .vStr s => parseDecimal s
  | _ => none

/-- A validated `play`/`sustain` payload (`validatedMsg.play` /
`validatedMsg.sustain` in `socketServer.js`). -/
structure PlayPayload where
  keyId : String
  hz : ℚ
  volume : ℚ
deriving Repr, DecidableEq

/-- A validated `stop` payload. -/
structure StopPayload where
  keyId : String
deriving Repr, DecidableEq

/-- The object `validateMessage` builds: any subset of the three shapes. -/
structure ValidatedMsg where
  play : Option PlayPayload
  stop : Option StopPayload
  sustain : Option PlayPayload
deriving Repr, DecidableEq

/-- The shared body of the `play` and `sustain` branches of `validateMessage`:
`parseFloat` both fields, reject (whole call returns `null`) on `NaN` or
out-of-range, otherwise build the payload with the defensively clamped volume
and the keyId coerced via `String(keyId || '').substring(0, 100)`. -/
def checkPlayShape (f : JSVal) : Option PlayPayload :=
  match jsParseFloat (jsGet f "hz") with
  | none => none
  | some hz =>
    if hz < 20 ∨ hz > 20000 then none
    else
      match jsParseFloat (jsGet f "volume") with
      | none => none
      | some volume =>
        if volume < 0 ∨ volume > 1 then none
        else
          some { keyId := jsSubstring (jsToString (jsOrEmptyString (jsGet f "keyId"))) 100
                 hz := hz
                 volume := max 0 (min 1 volume) }

/-- Does `message[k]` hold one of the three recognized shapes, i.e. is it a
truthy object (`message.k && typeof message.k === 'object'`)? -/
def hasShape (message : JSVal) (k : String) : Bool :=
  jsTruthy (jsGet message k) && jsTypeofObject (jsGet message k)

/-- `validateMessage` from `server/socketServer.js`: reject non-objects;
check each of the `play`, `stop`, `sustain` shapes in order, where a present
but invalid `play`/`sustain` shape aborts the whole call with `null`; return
`null` when no shape produced a field. -/
def validateMessage (message : JSVal) : Option ValidatedMsg :=
  if ¬ (jsTruthy message ∧ jsTypeofObject message) then none
  else
    let playRes : Option (Option PlayPayload) :=
      if hasShape message "play" then (checkPlayShape (jsGet message "play")).map some
      else some none
    match playRes with
    | none => none
    | some play =>
      let stop : Option StopPayload :=
        if hasShape message "stop" then
          some { keyId := jsSubstring
                   (jsToString (jsOrEmptyString (jsGet (jsGet message "stop") "keyId"))) 100 }
        else none
      let susRes : Option (Option PlayPayload) :=
        if hasShape message "sustain" then (checkPlayShape (jsGet message "sustain")).map some
        else some none
      match susRes with
      | none => none
      | some sustain =>
        if play.isSome ∨ stop.isSome ∨ sustain.isSome then
          some { play := play, stop := stop, sustain := sustain }
        else none

/-! ## The socket server (`attachSocketServer` in `server/socketServer.js`) -/

/-- The three inbound note event kinds. -/
inductive NoteKind where
  | play
  | stop
  | sustain
deriving Repr, DecidableEq

/-- The key under which the raw payload is wrapped before validation
(`validateMessage({play: data})` etc.). -/
def NoteKind.shapeName : NoteKind → String
  | .play => "play"
  | .stop => "stop"
  | .sustain => "sustain"

/-- The wire event name (`note:play` / `note:stop` / `note:sustain`). -/
def NoteKind.eventName : NoteKind → String
  | .play => "note:play"
  | .stop => "note:stop"
  | .sustain => "note:sustain"

/-- The validated payload carried inside a broadcast envelope. -/
inductive NoteData where
  | playData (p : PlayPayload)
  | stopData (p : StopPayload)
  | sustainData (p : PlayPayload)
deriving Repr, DecidableEq

/-- The server-stamped broadcast unit (`message` in the socket handlers). -/
structure Envelope where
  type : String
  sessionId : String
  data : NoteData
  timestamp : ℤ
deriving Repr, DecidableEq

/-- `MAX_BUFFER_SIZE` from `socketServer.js`. -/
def MAX_BUFFER_SIZE : ℕ := 15

/-- The mutable server state: the `sessions` registry (insertion-ordered key
list of the `Map`) and the rolling `messageBuffer`. -/
structure SrvState where
  sessions : List String
  messageBuffer : List Envelope
deriving Repr, DecidableEq

/-- State at server start: no sessions, empty buffer. -/
def SrvState.init : SrvState := ⟨[], []⟩

/-- The wrap-validate-project sequence of each note handler:
`validateMessage({<shape>: data})` followed by the `!validated ||
!validated.<shape>` guard. -/
def validatedData (k : NoteKind) (data : JSVal) : Option NoteData :=
  match validateMessage (.vObj [(k.shapeName, data)]) with
  | none => none
  | some vm =>
    match k with
    | .play => vm.play.map .playData
    | .stop => vm.stop.map .stopData
    | .sustain => vm.sustain.map .sustainData

/-- `messageBuffer.push(message)` followed by the shift-if-over-capacity
check. -/
def pushCapped (buf : List Envelope) (m : Envelope) : List Envelope :=
  let buf1 := buf ++ [m]
  if MAX_BUFFER_SIZE < buf1.length then buf1.tail else buf1

/-- Events the connection handler reacts to. -/
inductive SrvEvent where
  | connect (sid : String)
  | note (k : NoteKind) (sid : String) (data : JSVal) (now : ℤ)
  | disconnect (sid : String)

/-- Messages the server emits. -/
inductive SrvOut where
  | welcome (toSid : String) (sessionId : String) (activeSessions : List String)
      (messageHistory : List Envelope)
  | sessionJoined (toSid : String) (sid : String)
  | sessionLeft (toSid : String) (sid : String)
  | noteMsg (toSid : String) (event : String) (env : Envelope)
deriving Repr, DecidableEq

/-- `socket.broadcast.emit`: deliver to every connected socket except the
sender (Socket.IO semantics; the `sessions` registry mirrors the connected
sockets, which the connect/disconnect handlers keep in sync). -/
def broadcastTo (sessions : List String) (sender : String) (f : String → SrvOut) :
    List SrvOut :=
  (sessions.filter (fun r => r ≠ sender)).map f

/-- One step of the connection handler: new state plus emitted messages. -/
def srvStep (s : SrvState) : SrvEvent → SrvState × List SrvOut
  | .connect sid =>
    let sessions := if sid ∈ s.sessions then s.sessions else s.sessions ++ [sid]
    ({ s with sessions := sessions },
      .welcome sid sid sessions s.messageBuffer ::
        broadcastTo sessions sid (fun r => .sessionJoined r sid))
  | .note k sid data now =>
    match validatedData k data with
    | none => (s, [])
    | some d =>
      let env : Envelope := { type := k.eventName, sessionId := sid, data := d,
                              timestamp := now }
      let buf := if k = .play then pushCapped s.messageBuffer env else s.messageBuffer
      ({ s with messageBuffer := buf },
        broadcastTo s.sessions sid (fun r => .noteMsg r k.eventName env))
  | .disconnect sid =>
    let sessions := s.sessions.filter (fun r => r ≠ sid)
    ({ s with sessions := sessions },
      broadcastTo sessions sid (fun r => .sessionLeft r sid))

/-- Run a sequence of events from server start, keeping only the state. -/
def srvRun (evts : List SrvEvent) : SrvState :=
  evts.foldl (fun s e => (srvStep s e).1) SrvState.init

/-- The envelope a `note:play` event contributes to the history buffer, when
its payload validates. -/
def playEnvelopeOf : SrvEvent → Option Envelope
  | .note .play sid data now =>
    (validatedData .play data).map
      (fun d => { type := "note:play", sessionId := sid, data := d, timestamp := now })
  | _ => none

/-- All buffered-able play envelopes of an event sequence, in arrival order. -/
def playEnvelopes (evts : List SrvEvent) : List Envelope :=
  evts.filterMap playEnvelopeOf

/-! ## The AudioWorklet processor (`KSAudioProcessor` in
`public/audio-processor.js`) -/

/-- A note's playing state (`this.PLAYING = 0`, `this.RELEASING = 1`). -/
inductive NotePhase where
  | PLAYING
  | RELEASING
deriving Repr, DecidableEq

/-- One entry of `polyphonyHolder`: a sounding Karplus-Strong voice. -/
structure Voice where
  noteStopId : String
  periodIndex : ℚ
  periodN : ℤ
  period : List ℚ
  feedNoise : Bool
  previous : ℚ
  current : ℚ
  inc : ℚ
  volume : ℚ
  phase : NotePhase
  releaseVolume : ℚ
deriving Repr, DecidableEq

/-- A partial synthesis-parameter update (`data.params` of a `setParams`
message; `undefined` fields are absent). -/
structure ParamsPatch where
  damp : Option ℚ
  damp2 : Option ℚ
  noiseDamp : Option ℚ
  attack : Option ℚ
  release : Option ℚ
deriving Repr, DecidableEq

/-- The control messages posted to an engine
(`data.type ∈ {play, stop, sustain, setVolume, setParams}`). -/
inductive Msg where
  | play (noteStopId : String) (frequency volume : ℚ)
  | stop (noteStopId : String)
  | sustain (value : JSVal)
  | setVolume (volume : ℚ)
  | setParams (params : Option ParamsPatch)

/-- The low-frequency timbre correction of `play`:
`fact = frequency / 205 + 0.05` below 200 Hz, else 1. -/
def factorOf (frequency : ℚ) : ℚ :=
  if frequency < 200 then frequency / 205 + 1/20 else 1

/-- The in-place reactivation `play` performs on an already-sounding voice. -/
def retriggered (v : Voice) (periodN fact volume : ℚ) : Voice :=
  { v with phase := .PLAYING, feedNoise := true, periodIndex := 0,
           periodN := ⌊periodN⌋, inc := fact * (⌊periodN⌋ : ℚ) / periodN,
           releaseVolume := 1, volume := volume }

/-- Walk the holder looking for the first voice with the given id; when found,
apply `upd` to it and return the updated list (the JS loop returns from `play`
at the first match). -/
def retriggerFirst (id : String) (upd : Voice → Voice) : List Voice → Option (List Voice)
  | [] => none
  | v :: rest =>
    if v.noteStopId = id then some (upd v :: rest)
    else (retriggerFirst id upd rest).map (v :: ·)

/-- `stop`'s loop: mark the first voice with the given id as releasing
(the JS loop breaks at the first match). -/
def stopFirst (id : String) : List Voice → List Voice
  | [] => []
  | v :: rest =>
    if v.noteStopId = id then { v with phase := .RELEASING } :: rest
    else v :: stopFirst id rest

/-- The inner `for (j …)` voice loop of one output sample, abstracted over
the per-voice body: step voice `j` with `f j`, collect the updated voices and
the summed output contributions. -/
def stepVoicesWith (f : ℕ → Voice → Voice × ℚ) : ℕ → List Voice → List Voice × ℚ
  | _, [] => ([], 0)
  | j, v :: rest =>
    let hd := f j v
    let tl := stepVoicesWith f (j+1) rest
    (hd.1 :: tl.1, hd.2 + tl.2)

namespace KSAudioProcessor

/-- The processor's mutable fields.  `releaseVolume` here is the per-sample
release decay step (`this.releaseVolume = 0.0001`), distinct from each
voice's `releaseVolume` envelope value. -/
structure State where
  releaseVolume : ℚ
  damp : ℚ
  damp2 : ℚ
  noiseDamp : ℚ
  sustain : Bool
  masterVolume : ℚ
  buffers : List (List ℚ)
  polyphonyHolder : List Voice
deriving Repr, DecidableEq

/-- The constructor's initial state: 16 pre-allocated 2048-sample buffers,
no voices. -/
def init : State :=
  { releaseVolume := 1/10000, damp := 9/10, damp2 := 1, noiseDamp := 1/2,
    sustain := false, masterVolume := 4/5,
    buffers := List.replicate 16 (List.replicate 2048 0),
    polyphonyHolder := [] }

/-- `play(noteStopId, frequency, volume)`: retrigger an existing voice in
place, else admit a new voice only when the (uncorrected-by-floor) period
fits the 2048-sample buffer and the pool is non-empty (`buffers.pop()` takes
the last free buffer); otherwise silently drop. -/
def play (sampleRate : ℚ) (s : State) (noteStopId : String) (frequency volume : ℚ) :
    State :=
  let fact := factorOf frequency
  let periodN := fact * sampleRate / frequency
  match retriggerFirst noteStopId (fun v => retriggered v periodN fact volume)
      s.polyphonyHolder with
  | some holder => { s with polyphonyHolder := holder }
  | none =>
    if periodN < 2048 then
      match s.buffers.getLast? with
      | some buffer =>
        { s with
          buffers := s.buffers.dropLast
          polyphonyHolder := s.polyphonyHolder ++
            [{ noteStopId := noteStopId, periodIndex := 0, periodN := ⌊periodN⌋,
               period := buffer, feedNoise := true, previous := 0, current := 0,
               inc := fact * (⌊periodN⌋ : ℚ) / periodN, volume := volume,
               phase := .PLAYING, releaseVolume := 1 }]
        }
      | none => s
    else s

/-- `stop(noteStopId)`. -/
def stop (s : State) (noteStopId : String) : State :=
  { s with polyphonyHolder := stopFirst noteStopId s.polyphonyHolder }

/-- `setSustain(sustain)`: `true`/`'on'`, `false`/`'off'`, `'switch'`
(anything else falls through the switch unchanged). -/
def setSustain (s : State) (value : JSVal) : State :=
  match value with
  | .vBool true => { s with sustain := true }
  | .vStr "on" => { s with sustain := true }
  | .vBool false => { s with sustain := false }
  | .vStr "off" => { s with sustain := false }
  | .vStr "switch" => { s with sustain := !s.sustain }
  | _ => s

/-- The per-voice body of the sample loop in `process`: release decay, phase
advance with wraparound, conditional delay-line regeneration (noise burst in
the upper half of the period while `feedNoise`, buffer fold in the lower
half, then the one-pole lowpass), and the interpolated output contribution.
`r` holds the two `Math.random()` draws a noise write would consume. -/
def stepVoice (s : State) (r : ℚ × ℚ) (note : Voice) : Voice × ℚ :=
  let note :=
    if note.phase = .RELEASING ∧ s.sustain = false then
      let rv := note.releaseVolume - s.releaseVolume
      { note with releaseVolume := if rv < 0 then 0 else rv }
    else note
  let note := { note with periodIndex := note.periodIndex + note.inc }
  let note :=
    if (note.periodN : ℚ) ≤ note.periodIndex then
      { note with periodIndex := note.periodIndex - note.periodN, feedNoise := false }
    else note
  let periodIndex : ℤ := ⌊note.periodIndex⌋
  let sub : ℚ := note.periodIndex - periodIndex
  let note :=
    if sub < note.inc then
      let dampAndNote :=
        if note.feedNoise then
          if (note.periodN : ℚ) / 2 < note.periodIndex then
            (s.damp * s.noiseDamp,
             { note with period :=
                 (note.period.set periodIndex.toNat ((1 / s.noiseDamp) * (r.1 - r.2))) })
          else
            (s.damp,
             { note with period :=
                 (note.period.set periodIndex.toNat
                   (note.period.getD (note.periodN - periodIndex).toNat 0)) })
        else (s.damp, note)
      let damp := dampAndNote.1
      let note := dampAndNote.2
      let previous := note.current
      let current :=
        (note.current + (note.period.getD periodIndex.toNat 0 - note.current) * damp)
          * s.damp2
      { note with previous := previous, current := current,
                  period := note.period.set periodIndex.toNat current }
    else note
  (note, (sub * note.current + (1 - sub) * note.previous)
           * note.volume * note.releaseVolume)

/-- One output sample: every active voice advances once and the
contributions sum (`rs j` feeds voice `j`'s potential noise draws). -/
def stepFrame (s : State) (rs : ℕ → ℚ × ℚ) (voices : List Voice) :
    List Voice × ℚ :=
  stepVoicesWith (fun j v => stepVoice s (rs j) v) 0 voices

/-- Frames `i, i+1, …` (`fuel` many) of the sample loop. -/
def runFramesFrom (s : State) (noise : ℕ → ℕ → ℚ × ℚ) :
    ℕ → ℕ → List Voice → List Voice × List ℚ
  | _, 0, voices => (voices, [])
  | i, fuel+1, voices =>
    let fr := stepFrame s (noise i) voices
    let rest := runFramesFrom s noise (i+1) fuel fr.1
    (rest.1, fr.2 :: rest.2)

/-- `process`: generate `frameCount` samples, apply `masterVolume` to the
block, then sweep out voices whose `releaseVolume` reached exactly 0,
returning their buffers to the pool (the sweep walks the holder backwards,
so buffers come back in reverse holder order). -/
def process (s : State) (frameCount : ℕ) (noise : ℕ → ℕ → ℚ × ℚ) :
    State × List ℚ :=
  let res := runFramesFrom s noise 0 frameCount s.polyphonyHolder
  let voices := res.1
  let outs := res.2.map (fun x => x * s.masterVolume)
  ({ s with
     polyphonyHolder := voices.filter (fun v => ¬ v.releaseVolume = 0),
     buffers := s.buffers ++ ((voices.filter (fun v => v.releaseVolume = 0)).reverse.map
       (fun v => v.period)) }, outs)

/-- `handleMessage` (`this.port.onmessage`): dispatch on `data.type`.  The
switch has no `setParams` case, so such messages fall through with no
effect. -/
def handleMessage (sampleRate : ℚ) (s : State) : Msg → State
  | .play id f v => play sampleRate s id f v
  | .stop id => stop s id
  | .sustain v => setSustain s v
  | .setVolume v => { s with masterVolume := v }
  | .setParams _ => s

/-- A control/render step for reachability arguments: any of the four
handled control messages, or one `process` call. -/
inductive Cmd where
  | play (noteStopId : String) (frequency volume : ℚ)
  | stop (noteStopId : String)
  | sustain (value : JSVal)
  | setVolume (volume : ℚ)
  | process (frameCount : ℕ) (noise : ℕ → ℕ → ℚ × ℚ)

/-- Apply one command. -/
def applyCmd (sampleRate : ℚ) (s : State) : Cmd → State
  | .play id f v => play sampleRate s id f v
  | .stop id => stop s id
  | .sustain v => setSustain s v
  | .setVolume v => { s with masterVolume := v }
  | .process n noise => (process s n noise).1

/-- Run a command sequence from the constructor's state. -/
def run (sampleRate : ℚ) (cmds : List Cmd) : State :=
  cmds.foldl (applyCmd sampleRate) init

end KSAudioProcessor

/-! ## The main-thread fallback engine (`createScriptProcessorFallback` in
`src/audio.ts`) -/

namespace ScriptProcessorFallback

/-- The closure variables of `createScriptProcessorFallback`.  Unlike the
worklet this engine has an `attack` parameter, and its `releaseVolume`
(the decay rate) is settable via `setParams.release`. -/
structure State where
  masterVolume : ℚ
  damp : ℚ
  damp2 : ℚ
  noiseDamp : ℚ
  attack : ℚ
  releaseVolume : ℚ
  sustain : Bool
  buffers : List (List ℚ)
  polyphonyHolder : List Voice
deriving Repr, DecidableEq

/-- Initial closure state: 16 pre-allocated 2048-sample buffers, no voices. -/
def init : State :=
  { masterVolume := 4/5, damp := 9/10, damp2 := 1, noiseDamp := 1/2,
    attack := 1/2, releaseVolume := 1/10000, sustain := false,
    buffers := List.replicate 16 (List.replicate 2048 0),
    polyphonyHolder := [] }

/-- The `'play'` case of `fakePort.postMessage`: identical admission and
retrigger logic to the worklet's `play`. -/
def play (sampleRate : ℚ) (s : State) (noteStopId : String) (frequency volume : ℚ) :
    State :=
  let fact := factorOf frequency
  let periodN := fact * sampleRate / frequency
  match retriggerFirst noteStopId (fun v => retriggered v periodN fact volume)
      s.polyphonyHolder with
  | some holder => { s with polyphonyHolder := holder }
  | none =>
    if periodN < 2048 then
      match s.buffers.getLast? with
      | some buffer =>
        { s with
          buffers := s.buffers.dropLast
          polyphonyHolder := s.polyphonyHolder ++
            [{ noteStopId := noteStopId, periodIndex := 0, periodN := ⌊periodN⌋,
               period := buffer, feedNoise := true, previous := 0, current := 0,
               inc := fact * (⌊periodN⌋ : ℚ) / periodN, volume := volume,
               phase := .PLAYING, releaseVolume := 1 }]
        }
      | none => s
    else s

/-- The `'stop'` case. -/
def stop (s : State) (noteStopId : String) : State :=
  { s with polyphonyHolder := stopFirst noteStopId s.polyphonyHolder }

/-- The `'sustain'` case. -/
def setSustain (s : State) (value : JSVal) : State :=
  match value with
  | .vBool true => { s with sustain := true }
  | .vStr "on" => { s with sustain := true }
  | .vBool false => { s with sustain := false }
  | .vStr "off" => { s with sustain := false }
  | .vStr "switch" => { s with sustain := !s.sustain }
  | _ => s

/-- The body of the `'setParams'` case: each field updates its closure
variable only when it is not `undefined`. -/
def applySetParams (s : State) (p : ParamsPatch) : State :=
  let s := match p.damp with | some v => { s with damp := v } | none => s
  let s := match p.damp2 with | some v => { s with damp2 := v } | none => s
  let s := match p.noiseDamp with | some v => { s with noiseDamp := v } | none => s
  let s := match p.attack with | some v => { s with attack := v } | none => s
  let s := match p.release with | some v => { s with releaseVolume := v } | none => s
  s

/-- `fakePort.postMessage`: the full five-case dispatch (with the
`if (data.params)` guard on `setParams`). -/
def handleMessage (sampleRate : ℚ) (s : State) : Msg → State
  | .play id f v => play sampleRate s id f v
  | .stop id => stop s id
  | .sustain v => setSustain s v
  | .setVolume v => { s with masterVolume := v }
  | .setParams params =>
    match params with
    | some p => applySetParams s p
    | none => s

/-- The per-voice body of `onaudioprocess`: the only difference from the
worklet's loop is the noise-burst region test, `periodIndex >
periodN * (1 - attack)` instead of `periodIndex > periodN / 2`. -/
def stepVoice (s : State) (r : ℚ × ℚ) (note : Voice) : Voice × ℚ :=
  let note :=
    if note.phase = .RELEASING ∧ s.sustain = false then
      let rv := note.releaseVolume - s.releaseVolume
      { note with releaseVolume := if rv < 0 then 0 else rv }
    else note
  let note := { note with periodIndex := note.periodIndex + note.inc }
  let note :=
    if (note.periodN : ℚ) ≤ note.periodIndex then
      { note with periodIndex := note.periodIndex - note.periodN, feedNoise := false }
    else note
  let periodIndex : ℤ := ⌊note.periodIndex⌋
  let sub : ℚ := note.periodIndex - periodIndex
  let note :=
    if sub < note.inc then
      let dampAndNote :=
        if note.feedNoise then
          if (note.periodN : ℚ) * (1 - s.attack) < note.periodIndex then
            (s.damp * s.noiseDamp,
             { note with period :=
                 (note.period.set periodIndex.toNat ((1 / s.noiseDamp) * (r.1 - r.2))) })
          else
            (s.damp,
             { note with period :=
                 (note.period.set periodIndex.toNat
                   (note.period.getD (note.periodN - periodIndex).toNat 0)) })
        else (s.damp, note)
      let damp := dampAndNote.1
      let note := dampAndNote.2
      let previous := note.current
      let current :=
        (note.current + (note.period.getD periodIndex.toNat 0 - note.current) * damp)
          * s.damp2
      { note with previous := previous, current := current,
                  period := note.period.set periodIndex.toNat current }
    else note
  (note, (sub * note.current + (1 - sub) * note.previous)
           * note.volume * note.releaseVolume)

/-- One output sample across all voices. -/
def stepFrame (s : State) (rs : ℕ → ℚ × ℚ) (voices : List Voice) :
    List Voice × ℚ :=
  stepVoicesWith (fun j v => stepVoice s (rs j) v) 0 voices

/-- Frames `i, i+1, …` (`fuel` many) of the sample loop. -/
def runFramesFrom (s : State) (noise : ℕ → ℕ → ℚ × ℚ) :
    ℕ → ℕ → List Voice → List Voice × List ℚ
  | _, 0, voices => (voices, [])
  | i, fuel+1, voices =>
    let fr := stepFrame s (noise i) voices
    let rest := runFramesFrom s noise (i+1) fuel fr.1
    (rest.1, fr.2 :: rest.2)

/-- `onaudioprocess`: generate the block, apply `masterVolume`, sweep
finished voices back into the pool. -/
def process (s : State) (frameCount : ℕ) (noise : ℕ → ℕ → ℚ × ℚ) :
    State × List ℚ :=
  let res := runFramesFrom s noise 0 frameCount s.polyphonyHolder
  let voices := res.1
  let outs := res.2.map (fun x => x * s.masterVolume)
  ({ s with
     polyphonyHolder := voices.filter (fun v => ¬ v.releaseVolume = 0),
     buffers := s.buffers ++ ((voices.filter (fun v => v.releaseVolume = 0)).reverse.map
       (fun v => v.period)) }, outs)

end ScriptProcessorFallback

/-! ## Claim-side definitions -/

/-- The last `n` entries of a list, in order. -/
def keepLast {α : Type} (n : ℕ) (l : List α) : List α :=
  l.drop (l.length - n)

/-- The note ids of the currently active voices. -/
def voiceIds (holder : List Voice) : List String :=
  holder.map (fun v => v.noteStopId)

/-- Each active voice's id paired with its release-envelope value. -/
def voiceReleases (holder : List Voice) : List (String × ℚ) :=
  holder.map (fun v => (v.noteStopId, v.releaseVolume))

/-- Iterate `process` over several blocks (frame count and noise source per
block). -/
def KSAudioProcessor.processBlocks :
    KSAudioProcessor.State → List (ℕ × (ℕ → ℕ → ℚ × ℚ)) → KSAudioProcessor.State
  | s, [] => s
  | s, b :: rest => KSAudioProcessor.processBlocks ((KSAudioProcessor.process s b.1 b.2).1) rest

/-- Claim C2's description of a bad `play`/`sustain` shape: `hz` fails to
parse as a (finite) number, or is out of `[20, 20000]`, or `volume` fails to
parse, or is out of `[0, 1]`. -/
def badPlayShape (f : JSVal) : Prop :=
  jsParseFloat (jsGet f "hz") = none
    ∨ (∃ q, jsParseFloat (jsGet f "hz") = some q ∧ (q < 20 ∨ q > 20000))
    ∨ jsParseFloat (jsGet f "volume") = none
    ∨ (∃ q, jsParseFloat (jsGet f "volume") = some q ∧ (q < 0 ∨ q > 1))

/-- Claim C2's characterisation of an unacceptable input: not an object, or
an object with none of the three shapes, or a present `play`/`sustain` shape
with bad `hz`/`volume`. -/
def claimUnacceptable (m : JSVal) : Prop :=
  (¬ ∃ fields, m = JSVal.vObj fields)
    ∨ (¬ hasShape m "play" ∧ ¬ hasShape m "stop" ∧ ¬ hasShape m "sustain")
    ∨ (hasShape m "play" ∧ badPlayShape (jsGet m "play"))
    ∨ (hasShape m "sustain" ∧ badPlayShape (jsGet m "sustain"))

/-- A concrete well-formed `note:play` payload, for witnesses. -/
def demoPlayPayload : JSVal :=
  .vObj [("keyId", .vStr "k"), ("hz", .vNum 440), ("volume", .vNum 1)]

/-- Twenty valid play events from one session, for witnesses. -/
def demoPlayEvents : List SrvEvent :=
  (List.range 20).map (fun i => SrvEvent.note .play "A" demoPlayPayload (i : ℤ))

/-- Sixteen distinct-id plays that all fit the delay buffer (sample rate
2048, frequency 1024 gives a 2-sample period), for witnesses. -/
def demoFillCmds : List KSAudioProcessor.Cmd :=
  (List.range 16).map (fun i => KSAudioProcessor.Cmd.play (toString i) 1024 1)

/-- The voice that `play 2048 "a" 1024 1` creates from the initial state,
for witnesses. -/
def demoVoice : Voice :=
  { noteStopId := "a", periodIndex := 0, periodN := 2,
    period := List.replicate 2048 0, feedNoise := true, previous := 0,
    current := 0, inc := 1, volume := 1, phase := .PLAYING, releaseVolume := 1 }

/-- A sustained state holding one releasing voice at full release gain, for
witnesses. -/
def demoSustainState : KSAudioProcessor.State :=
  { KSAudioProcessor.init with
    sustain := true
    polyphonyHolder := [{ demoVoice with phase := .RELEASING }] }

/-- A voice whose next sample lands at phase 60 of a 100-sample period —
inside the last `attack` fraction with the default attack ½ — for
witnesses. -/
def demoNoiseVoice : Voice :=
  { noteStopId := "c", periodIndex := 59, periodN := 100,
    period := List.replicate 2048 0, feedNoise := true, previous := 0,
    current := 0, inc := 1, volume := 1, phase := .PLAYING, releaseVolume := 1 }

/-! ## Helper lemmas -/

theorem jsGet_cons_self (k : String) (v : JSVal) (rest : List (String × JSVal)) :
    jsGet (.vObj ((k, v) :: rest)) k = v := by
  simp [jsGet, List.lookup]

theorem jsGet_cons_ne (k k' : String) (v : JSVal) (rest : List (String × JSVal))
    (h : k ≠ k') : jsGet (.vObj ((k', v) :: rest)) k = jsGet (.vObj rest) k := by
  simp [jsGet, List.lookup, beq_eq_false_iff_ne.mpr h]

theorem jsGet_nil (k : String) : jsGet (.vObj []) k = .vUndefined := rfl

/-- Claim C1, counterexample.  The claim says the returned `keyId` is "the
input keyId coerced to a string".  For the falsy keyId `false` the code's
`String(keyId || '')` yields `""`, while coercing `false` to a string yields
`"false"`: at `{play: {keyId: false, hz: 440, volume: 0.5}}` validation
succeeds but returns `keyId = ""`. -/
theorem C1_counterexample :
    validateMessage (.vObj [("play", .vObj [("keyId", .vBool false), ("hz", .vNum 440),
        ("volume", .vNum (1/2))])])
      = some { play := some { keyId := "", hz := 440, volume := 1/2 },
               stop := none, sustain := none }
    ∧ jsSubstring (jsToString (.vBool false)) 100 = "false"
    ∧ ("" : String) ≠ "false" :=
  ⟨by decide, by decide, by decide⟩

/-- Claim C1 (amended: a falsy `keyId` — `false`, `0`, `null`, `undefined`,
`""` — is first replaced by the empty string, per `String(keyId || '')`; for
every other keyId, and for every string keyId, this is exactly
coercion-to-string).  For every `{play: {keyId, hz, volume}}` with `hz` a
number or numeric string in `[20, 20000]` and `volume` a number or numeric
string in `[0, 1]`, validation succeeds, returns the same `hz` and `volume`
(the clamp being a no-op), and normalizes `keyId` to at most 100 characters;
a 150-character keyId is truncated to exactly 100 characters and never
rejected. -/
theorem C1_play_accepted_and_normalized (keyId hzV volV : JSVal) (hz vol : ℚ)
    (hhz : jsParseFloat hzV = some hz) (hhz1 : 20 ≤ hz) (hhz2 : hz ≤ 20000)
    (hvol : jsParseFloat volV = some vol) (hv1 : 0 ≤ vol) (hv2 : vol ≤ 1) :
    validateMessage (.vObj [("play", .vObj [("keyId", keyId), ("hz", hzV),
        ("volume", volV)])])
      = some { play := some { keyId := jsSubstring (jsToString (jsOrEmptyString keyId)) 100,
                              hz := hz, volume := vol },
               stop := none, sustain := none }
    ∧ (jsSubstring (jsToString (jsOrEmptyString keyId)) 100).length ≤ 100
    ∧ (∀ s : String, s.length = 150 →
        (jsSubstring (jsToString (jsOrEmptyString (.vStr s))) 100).length = 100) := by
  have hne1 : ("hz" : String) ≠ "keyId" := by decide
  have hne2 : ("volume" : String) ≠ "keyId" := by decide
  have hne3 : ("volume" : String) ≠ "hz" := by decide
  have hgethz : jsGet (.vObj [("keyId", keyId), ("hz", hzV), ("volume", volV)]) "hz"
      = hzV := by
    rw [jsGet_cons_ne _ _ _ _ hne1, jsGet_cons_self]
  have hgetvol : jsGet (.vObj [("keyId", keyId), ("hz", hzV), ("volume", volV)]) "volume"
      = volV := by
    rw [jsGet_cons_ne _ _ _ _ hne2, jsGet_cons_ne _ _ _ _ hne3, jsGet_cons_self]
  have hgetkey : jsGet (.vObj [("keyId", keyId), ("hz", hzV), ("volume", volV)]) "keyId"
      = keyId := jsGet_cons_self _ _ _
  have hcheck : checkPlayShape (.vObj [("keyId", keyId), ("hz", hzV), ("volume", volV)])
      = some { keyId := jsSubstring (jsToString (jsOrEmptyString keyId)) 100,
               hz := hz, volume := vol } := by
    rw [checkPlayShape, hgethz, hgetvol, hgetkey, hhz, hvol]
    have c1 : ¬ (hz < 20 ∨ hz > 20000) := by
      rw [not_or, not_lt, not_lt]
      exact ⟨hhz1, hhz2⟩
    have c2 : ¬ (vol < 0 ∨ vol > 1) := by
      rw [not_or, not_lt, not_lt]
      exact ⟨hv1, hv2⟩
    simp only [if_neg c1, if_neg c2]
    rw [min_eq_right hv2, max_eq_right hv1]
  refine ⟨?_, ?_, ?_⟩
  · rw [validateMessage]
    simp only [jsGet_cons_self, hasShape, jsTruthy, jsTypeofObject, hcheck]
    rfl
  · show (String.mk ((jsToString (jsOrEmptyString keyId)).data.take 100)).length ≤ 100
    show ((jsToString (jsOrEmptyString keyId)).data.take 100).length ≤ 100
    rw [List.length_take]
    exact min_le_left _ _
  · intro s hs
    have hsne : s ≠ "" := by
      intro h
      rw [h] at hs
      exact absurd hs (by decide)
    have h1 : jsOrEmptyString (.vStr s) = .vStr s := by
      rw [jsOrEmptyString]
      simp [jsTruthy, hsne]
    have hdata : s.data.length = 150 := hs
    rw [h1]
    show (String.mk ((jsToString (.vStr s)).data.take 100)).length = 100
    show ((jsToString (.vStr s)).data.take 100).length = 100
    show (s.data.take 100).length = 100
    rw [List.length_take, hdata]
    decide

/-- Witness for C1's theorem at a concrete 150-character keyId. -/
theorem C1_witness :
    validateMessage (.vObj [("play", .vObj [("keyId",
          .vStr (String.mk (List.replicate 150 'a'))), ("hz", .vNum 440),
        ("volume", .vNum (1/2))])])
      = some { play := some { keyId := jsSubstring (jsToString (jsOrEmptyString (.vStr (String.mk (List.replicate 150 'a'))))) 100, hz := 440, volume := 1/2 },
               stop := none, sustain := none }
    ∧ (jsSubstring (jsToString (jsOrEmptyString
        (.vStr (String.mk (List.replicate 150 'a'))))) 100).length ≤ 100
    ∧ (∀ s : String, s.length = 150 →
        (jsSubstring (jsToString (jsOrEmptyString (.vStr s))) 100).length = 100) :=
  C1_play_accepted_and_normalized (.vStr (String.mk (List.replicate 150 'a')))
    (.vNum 440) (.vNum (1/2)) 440 (1/2) (by decide) (by decide) (by decide)
    (by decide) (by decide) (by decide)

theorem checkPlayShape_eq_none_iff (f : JSVal) :
    checkPlayShape f = none ↔ badPlayShape f := by
  rw [checkPlayShape, badPlayShape]
  cases hhz : jsParseFloat (jsGet f "hz") with
  | none => simp
  | some q =>
    by_cases h1 : q < 20 ∨ q > 20000
    · simp [h1]
    · simp only [if_neg h1]
      cases hv : jsParseFloat (jsGet f "volume") with
      | none => simp [h1]
      | some r =>
        by_cases h2 : r < 0 ∨ r > 1
        · simp [h1, h2]
        · simp only [if_neg h2]
          simp [h1, h2]

/-- Claim C2: `validateMessage` returns `null` exactly on the unacceptable
inputs — non-objects, objects with none of the `play`/`stop`/`sustain`
shapes, and objects whose present `play` or `sustain` shape has an
unparseable or out-of-range `hz` or `volume`. -/
theorem C2_validate_none_iff (m : JSVal) :
    validateMessage m = none ↔ claimUnacceptable m := by
  cases m with
  | vObj fields =>
    rw [validateMessage, claimUnacceptable]
    by_cases hp : hasShape (JSVal.vObj fields) "play"
    · cases hcp : checkPlayShape (jsGet (JSVal.vObj fields) "play") with
      | none =>
        have hbad : badPlayShape (jsGet (JSVal.vObj fields) "play") :=
          (checkPlayShape_eq_none_iff _).mp hcp
        simp [jsTruthy, jsTypeofObject, hp, hcp, hbad]
      | some pp =>
        have hgood : ¬ badPlayShape (jsGet (JSVal.vObj fields) "play") := by
          intro hb
          rw [(checkPlayShape_eq_none_iff _).mpr hb] at hcp
          exact Option.noConfusion hcp
        by_cases hsu : hasShape (JSVal.vObj fields) "sustain"
        · cases hcs : checkPlayShape (jsGet (JSVal.vObj fields) "sustain") with
          | none =>
            have hbad : badPlayShape (jsGet (JSVal.vObj fields) "sustain") :=
              (checkPlayShape_eq_none_iff _).mp hcs
            simp [jsTruthy, jsTypeofObject, hp, hcp, hsu, hcs, hbad]
          | some sp =>
            have hgood2 : ¬ badPlayShape (jsGet (JSVal.vObj fields) "sustain") := by
              intro hb
              rw [(checkPlayShape_eq_none_iff _).mpr hb] at hcs
              exact Option.noConfusion hcs
            simp [jsTruthy, jsTypeofObject, hp, hcp, hsu, hcs, hgood, hgood2]
        · simp [jsTruthy, jsTypeofObject, hp, hcp, hsu, hgood]
    · by_cases hsu : hasShape (JSVal.vObj fields) "sustain"
      · cases hcs : checkPlayShape (jsGet (JSVal.vObj fields) "sustain") with
        | none =>
          have hbad : badPlayShape (jsGet (JSVal.vObj fields) "sustain") :=
            (checkPlayShape_eq_none_iff _).mp hcs
          simp [jsTruthy, jsTypeofObject, hp, hsu, hcs, hbad]
        | some sp =>
          have hgood2 : ¬ badPlayShape (jsGet (JSVal.vObj fields) "sustain") := by
            intro hb
            rw [(checkPlayShape_eq_none_iff _).mpr hb] at hcs
            exact Option.noConfusion hcs
          simp [jsTruthy, jsTypeofObject, hp, hsu, hcs, hgood2]
      · by_cases hst : hasShape (JSVal.vObj fields) "stop"
        · simp [jsTruthy, jsTypeofObject, hp, hsu, hst]
        · simp [jsTruthy, jsTypeofObject, hp, hsu, hst]
  | vUndefined => simp [validateMessage, claimUnacceptable, jsTruthy, jsTypeofObject]
  | vNull => simp [validateMessage, claimUnacceptable, jsTruthy, jsTypeofObject, hasShape, jsGet]
  | vBool b => simp [validateMessage, claimUnacceptable, jsTruthy, jsTypeofObject]
  | vNum q => simp [validateMessage, claimUnacceptable, jsTruthy, jsTypeofObject]
  | vStr s => simp [validateMessage, claimUnacceptable, jsTruthy, jsTypeofObject]

theorem keepLast_append_left {α : Type} (n : ℕ) (x l : List α) :
    keepLast n (keepLast n x ++ l) = keepLast n (x ++ l) := by
  have hdx : x.length - n ≤ x.length := Nat.sub_le _ _
  simp only [keepLast]
  rw [← List.drop_append_of_le_length hdx, List.drop_drop]
  congr 1
  simp only [List.length_drop, List.length_append]
  omega

theorem pushCapped_eq_keepLast (b : List Envelope) (m : Envelope) (h : b.length ≤ 15) :
    pushCapped b m = keepLast 15 (b ++ [m]) := by
  simp only [pushCapped, MAX_BUFFER_SIZE, keepLast]
  split
  · next hc =>
    simp only [List.length_append, List.length_cons, List.length_nil] at hc ⊢
    have h1 : b.length + (0 + 1) - 15 = 1 := by omega
    rw [h1, List.drop_one]
  · next hc =>
    simp only [List.length_append, List.length_cons, List.length_nil] at hc ⊢
    have h0 : b.length + (0 + 1) - 15 = 0 := by omega
    rw [h0, List.drop_zero]

theorem pushCapped_length_le (b : List Envelope) (m : Envelope) (h : b.length ≤ 15) :
    (pushCapped b m).length ≤ 15 := by
  simp only [pushCapped, MAX_BUFFER_SIZE]
  split
  · next hc =>
    simp only [List.length_tail, List.length_append, List.length_cons, List.length_nil]
      at hc ⊢
    omega
  · next hc =>
    simp only [List.length_append, List.length_cons, List.length_nil] at hc ⊢
    omega

theorem srvStep_messageBuffer (s : SrvState) (e : SrvEvent) :
    (srvStep s e).1.messageBuffer =
      match playEnvelopeOf e with
      | some env => pushCapped s.messageBuffer env
      | none => s.messageBuffer := by
  cases e with
  | connect sid => rfl
  | disconnect sid => rfl
  | note k sid data now =>
    cases k with
    | play =>
      simp only [srvStep, playEnvelopeOf]
      cases hv : validatedData .play data with
      | none => simp
      | some d => simp [NoteKind.eventName]
    | stop =>
      simp only [srvStep, playEnvelopeOf]
      cases validatedData .stop data <;> rfl
    | sustain =>
      simp only [srvStep, playEnvelopeOf]
      cases validatedData .sustain data <;> rfl

theorem srvSteps_messageBuffer (evts : List SrvEvent) :
    ∀ s : SrvState,
      (evts.foldl (fun s e => (srvStep s e).1) s).messageBuffer
        = (playEnvelopes evts).foldl pushCapped s.messageBuffer := by
  induction evts with
  | nil => intro s; rfl
  | cons e rest ih =>
    intro s
    rw [List.foldl_cons, ih]
    have hstep := srvStep_messageBuffer s e
    simp only [playEnvelopes, List.filterMap_cons]
    cases hv : playEnvelopeOf e with
    | none =>
      rw [hv] at hstep
      rw [hstep]
    | some env =>
      rw [hv] at hstep
      rw [hstep, List.foldl_cons]

theorem foldl_pushCapped_length (l : List Envelope) :
    ∀ b : List Envelope, b.length ≤ 15 → (l.foldl pushCapped b).length ≤ 15 := by
  induction l with
  | nil => intro b h; exact h
  | cons a l ih =>
    intro b h
    rw [List.foldl_cons]
    exact ih _ (pushCapped_length_le _ _ h)

theorem foldl_pushCapped_keepLast (l : List Envelope) :
    ∀ b : List Envelope, b.length ≤ 15 → l.foldl pushCapped b = keepLast 15 (b ++ l) := by
  induction l with
  | nil =>
    intro b h
    rw [List.foldl_nil, List.append_nil, keepLast]
    have h0 : b.length - 15 = 0 := by omega
    rw [h0, List.drop_zero]
  | cons a l ih =>
    intro b h
    rw [List.foldl_cons, ih _ (pushCapped_length_le _ _ h), pushCapped_eq_keepLast _ _ h,
        keepLast_append_left, List.append_assoc, List.singleton_append]

/-- Claim C3: the history buffer is a capacity-15 FIFO recording only valid
`note:play` envelopes.  From server start the buffer always equals the last
(at most) 15 play envelopes in arrival order, its length never exceeds 15,
each valid play appends one envelope with oldest-first eviction, `note:stop`
and `note:sustain` never touch it, and after a sequence containing exactly
20 valid plays it holds exactly the last 15 of them. -/
theorem C3_history_buffer (evts : List SrvEvent)
    (h20 : (playEnvelopes evts).length = 20) :
    (srvRun evts).messageBuffer = (playEnvelopes evts).drop 5
    ∧ (srvRun evts).messageBuffer.length = 15
    ∧ (∀ evts' : List SrvEvent,
        (srvRun evts').messageBuffer = keepLast 15 (playEnvelopes evts')
        ∧ (srvRun evts').messageBuffer.length ≤ 15)
    ∧ (∀ (s : SrvState) (sid : String) (data : JSVal) (now : ℤ) (env : Envelope),
        playEnvelopeOf (.note .play sid data now) = some env →
          (srvStep s (.note .play sid data now)).1.messageBuffer
            = pushCapped s.messageBuffer env)
    ∧ (∀ (s : SrvState) (k : NoteKind) (sid : String) (data : JSVal) (now : ℤ),
        k ≠ .play →
          (srvStep s (.note k sid data now)).1.messageBuffer = s.messageBuffer) := by
  have hgen : ∀ evts' : List SrvEvent,
      (srvRun evts').messageBuffer = keepLast 15 (playEnvelopes evts') := by
    intro evts'
    rw [srvRun, srvSteps_messageBuffer]
    have hinit : (SrvState.init).messageBuffer = ([] : List Envelope) := rfl
    rw [hinit, foldl_pushCapped_keepLast _ _ (by simp), List.nil_append]
  refine ⟨?_, ?_, ?_, ?_, ?_⟩
  · rw [hgen, keepLast, h20]
  · rw [hgen, keepLast, List.length_drop, h20]
  · intro evts'
    refine ⟨hgen evts', ?_⟩
    rw [hgen, keepLast, List.length_drop]
    omega
  · intro s sid data now env henv
    have h := srvStep_messageBuffer s (.note .play sid data now)
    rw [henv] at h
    exact h
  · intro s k sid data now hk
    have h := srvStep_messageBuffer s (.note k sid data now)
    cases k with
    | play => exact absurd rfl hk
    | stop => exact h
    | sustain => exact h

/-- Witness for C3's theorem on twenty concrete play events. -/
theorem C3_witness :
    (srvRun demoPlayEvents).messageBuffer = (playEnvelopes demoPlayEvents).drop 5
    ∧ (srvRun demoPlayEvents).messageBuffer.length = 15
    ∧ (∀ evts' : List SrvEvent,
        (srvRun evts').messageBuffer = keepLast 15 (playEnvelopes evts')
        ∧ (srvRun evts').messageBuffer.length ≤ 15)
    ∧ (∀ (s : SrvState) (sid : String) (data : JSVal) (now : ℤ) (env : Envelope),
        playEnvelopeOf (.note .play sid data now) = some env →
          (srvStep s (.note .play sid data now)).1.messageBuffer
            = pushCapped s.messageBuffer env)
    ∧ (∀ (s : SrvState) (k : NoteKind) (sid : String) (data : JSVal) (now : ℤ),
        k ≠ .play →
          (srvStep s (.note k sid data now)).1.messageBuffer = s.messageBuffer) :=
  C3_history_buffer demoPlayEvents (by decide)

/-- Claim C4: for any validated `note:play`/`note:stop`/`note:sustain`
payload from session `sid`, the server builds the envelope
`{type, sessionId := sid, data := validated payload, timestamp := now}` and
emits it exactly to the connected sessions other than `sid`: no emitted note
message is addressed to `sid`, and every other registered session receives
it. -/
theorem C4_broadcast_excludes_sender (s : SrvState) (k : NoteKind) (sid : String)
    (data : JSVal) (now : ℤ) (d : NoteData)
    (hd : validatedData k data = some d) :
    (srvStep s (.note k sid data now)).2
      = (s.sessions.filter (fun r => r ≠ sid)).map
          (fun r => SrvOut.noteMsg r k.eventName
            { type := k.eventName, sessionId := sid, data := d, timestamp := now })
    ∧ (∀ (r : String) (ev : String) (env : Envelope),
        SrvOut.noteMsg r ev env ∈ (srvStep s (.note k sid data now)).2 → r ≠ sid)
    ∧ (∀ r ∈ s.sessions, r ≠ sid →
        SrvOut.noteMsg r k.eventName
          { type := k.eventName, sessionId := sid, data := d, timestamp := now }
          ∈ (srvStep s (.note k sid data now)).2) := by
  have hstep : (srvStep s (.note k sid data now)).2
      = (s.sessions.filter (fun r => r ≠ sid)).map
          (fun r => SrvOut.noteMsg r k.eventName
            { type := k.eventName, sessionId := sid, data := d, timestamp := now }) := by
    simp only [srvStep, hd, broadcastTo]
  refine ⟨hstep, ?_, ?_⟩
  · intro r ev env hmem
    rw [hstep] at hmem
    simp only [List.mem_map, List.mem_filter, SrvOut.noteMsg.injEq] at hmem
    obtain ⟨r', ⟨hr1, hr2⟩, heqr, heqe, heqenv⟩ := hmem
    subst heqr
    simpa using hr2
  · intro r hr hne
    rw [hstep]
    simp only [List.mem_map, List.mem_filter]
    exact ⟨r, ⟨hr, by simpa using hne⟩, rfl⟩

/-- Witness for C4's theorem: three sessions, sender "B". -/
theorem C4_witness :
    (srvStep ⟨["A", "B", "C"], []⟩ (.note .play "B" demoPlayPayload 5)).2
      = ((["A", "B", "C"] : List String).filter (fun r => r ≠ "B")).map
          (fun r => SrvOut.noteMsg r NoteKind.play.eventName
            { type := NoteKind.play.eventName, sessionId := "B",
              data := .playData { keyId := "k", hz := 440, volume := 1 },
              timestamp := 5 })
    ∧ (∀ (r : String) (ev : String) (env : Envelope),
        SrvOut.noteMsg r ev env
          ∈ (srvStep ⟨["A", "B", "C"], []⟩ (.note .play "B" demoPlayPayload 5)).2 →
        r ≠ "B")
    ∧ (∀ r ∈ (["A", "B", "C"] : List String), r ≠ "B" →
        SrvOut.noteMsg r NoteKind.play.eventName
          { type := NoteKind.play.eventName, sessionId := "B",
            data := .playData { keyId := "k", hz := 440, volume := 1 },
            timestamp := 5 }
          ∈ (srvStep ⟨["A", "B", "C"], []⟩ (.note .play "B" demoPlayPayload 5)).2) :=
  C4_broadcast_excludes_sender ⟨["A", "B", "C"], []⟩ .play "B" demoPlayPayload 5
    (.playData { keyId := "k", hz := 440, volume := 1 }) (by decide)

/-! ## Karplus-Strong engine lemmas -/

theorem retriggerFirst_length (id : String) (upd : Voice → Voice) :
    ∀ (l l' : List Voice), retriggerFirst id upd l = some l' → l'.length = l.length := by
  intro l
  induction l with
  | nil => intro l' h; exact absurd h (by simp [retriggerFirst])
  | cons v rest ih =>
    intro l' h
    rw [retriggerFirst] at h
    by_cases hv : v.noteStopId = id
    · rw [if_pos hv] at h
      cases h
      simp
    · rw [if_neg hv] at h
      cases hrec : retriggerFirst id upd rest with
      | none => rw [hrec] at h; exact absurd h (by simp)
      | some rest' =>
        rw [hrec] at h
        cases h
        simp [ih rest' hrec]

theorem retriggerFirst_ids (id : String) (upd : Voice → Voice)
    (hupd : ∀ v, (upd v).noteStopId = v.noteStopId) :
    ∀ (l l' : List Voice), retriggerFirst id upd l = some l' →
      voiceIds l' = voiceIds l := by
  intro l
  induction l with
  | nil => intro l' h; exact absurd h (by simp [retriggerFirst])
  | cons v rest ih =>
    intro l' h
    rw [retriggerFirst] at h
    by_cases hv : v.noteStopId = id
    · rw [if_pos hv] at h
      cases h
      simp [voiceIds, hupd]
    · rw [if_neg hv] at h
      cases hrec : retriggerFirst id upd rest with
      | none => rw [hrec] at h; exact absurd h (by simp)
      | some rest' =>
        rw [hrec] at h
        cases h
        have := ih rest' hrec
        simp only [voiceIds, List.map_cons] at *
        rw [this]

theorem retriggerFirst_none_of_not_mem (id : String) (upd : Voice → Voice) :
    ∀ l : List Voice, id ∉ voiceIds l → retriggerFirst id upd l = none := by
  intro l
  induction l with
  | nil => intro _; rfl
  | cons v rest ih =>
    intro h
    simp only [voiceIds, List.map_cons, List.mem_cons, not_or] at h
    rw [retriggerFirst, if_neg (fun he => h.1 he.symm), ih (by simpa [voiceIds] using h.2)]
    rfl

theorem retriggerFirst_none_mem (id : String) (upd : Voice → Voice) :
    ∀ l : List Voice, retriggerFirst id upd l = none → id ∉ voiceIds l := by
  intro l
  induction l with
  | nil => intro _; simp [voiceIds]
  | cons v rest ih =>
    intro h
    rw [retriggerFirst] at h
    by_cases hv : v.noteStopId = id
    · rw [if_pos hv] at h; exact absurd h (by simp)
    · rw [if_neg hv] at h
      cases hrec : retriggerFirst id upd rest with
      | some rest' => rw [hrec] at h; exact absurd h (by simp)
      | none =>
        simp only [voiceIds, List.map_cons, List.mem_cons, not_or]
        exact ⟨fun he => hv he.symm, by simpa [voiceIds] using ih hrec⟩

theorem stopFirst_releases (id : String) :
    ∀ l : List Voice, voiceReleases (stopFirst id l) = voiceReleases l := by
  intro l
  induction l with
  | nil => rfl
  | cons v rest ih =>
    rw [stopFirst]
    by_cases hv : v.noteStopId = id
    · rw [if_pos hv]
      simp [voiceReleases]
    · rw [if_neg hv]
      simp only [voiceReleases, List.map_cons] at *
      rw [ih]

theorem stopFirst_ids (id : String) :
    ∀ l : List Voice, voiceIds (stopFirst id l) = voiceIds l := by
  intro l
  induction l with
  | nil => rfl
  | cons v rest ih =>
    rw [stopFirst]
    by_cases hv : v.noteStopId = id
    · rw [if_pos hv]
      simp [voiceIds]
    · rw [if_neg hv]
      simp only [voiceIds, List.map_cons] at *
      rw [ih]

theorem KSAudioProcessor.stepVoice_noteStopId (s : KSAudioProcessor.State)
    (r : ℚ × ℚ) (v : Voice) :
    ((KSAudioProcessor.stepVoice s r v).1).noteStopId = v.noteStopId := by
  rw [KSAudioProcessor.stepVoice]
  dsimp only
  split_ifs <;> rfl

theorem KSAudioProcessor.stepVoice_releaseVolume (s : KSAudioProcessor.State)
    (r : ℚ × ℚ) (v : Voice) :
    ((KSAudioProcessor.stepVoice s r v).1).releaseVolume
      = if v.phase = .RELEASING ∧ s.sustain = false
        then (if v.releaseVolume - s.releaseVolume < 0 then 0
              else v.releaseVolume - s.releaseVolume)
        else v.releaseVolume := by
  rw [KSAudioProcessor.stepVoice]
  dsimp only
  split_ifs <;> rfl

theorem stepVoicesWith_length (f : ℕ → Voice → Voice × ℚ) :
    ∀ (j : ℕ) (l : List Voice), ((stepVoicesWith f j l).1).length = l.length := by
  intro j l
  induction l generalizing j with
  | nil => rfl
  | cons v rest ih =>
    rw [stepVoicesWith]
    dsimp only
    rw [List.length_cons, List.length_cons, ih (j+1)]

theorem stepVoicesWith_ids (f : ℕ → Voice → Voice × ℚ)
    (hf : ∀ j v, ((f j v).1).noteStopId = v.noteStopId) :
    ∀ (j : ℕ) (l : List Voice), voiceIds ((stepVoicesWith f j l).1) = voiceIds l := by
  intro j l
  induction l generalizing j with
  | nil => rfl
  | cons v rest ih =>
    rw [stepVoicesWith]
    dsimp only
    simp only [voiceIds, List.map_cons]
    rw [hf j v]
    have := ih (j+1)
    simp only [voiceIds] at this
    rw [this]

theorem stepVoicesWith_releases (f : ℕ → Voice → Voice × ℚ)
    (hf : ∀ j v, ((f j v).1).noteStopId = v.noteStopId
            ∧ ((f j v).1).releaseVolume = v.releaseVolume) :
    ∀ (j : ℕ) (l : List Voice),
      voiceReleases ((stepVoicesWith f j l).1) = voiceReleases l := by
  intro j l
  induction l generalizing j with
  | nil => rfl
  | cons v rest ih =>
    rw [stepVoicesWith]
    dsimp only
    simp only [voiceReleases, List.map_cons]
    rw [(hf j v).1, (hf j v).2]
    have := ih (j+1)
    simp only [voiceReleases] at this
    rw [this]

theorem KSAudioProcessor.runFramesFrom_length (s : KSAudioProcessor.State)
    (noise : ℕ → ℕ → ℚ × ℚ) :
    ∀ (fuel i : ℕ) (l : List Voice),
      ((KSAudioProcessor.runFramesFrom s noise i fuel l).1).length = l.length := by
  intro fuel
  induction fuel with
  | zero => intro i l; rfl
  | succ n ih =>
    intro i l
    rw [KSAudioProcessor.runFramesFrom]
    dsimp only
    rw [ih, KSAudioProcessor.stepFrame, stepVoicesWith_length]

theorem KSAudioProcessor.runFramesFrom_ids (s : KSAudioProcessor.State)
    (noise : ℕ → ℕ → ℚ × ℚ) :
    ∀ (fuel i : ℕ) (l : List Voice),
      voiceIds ((KSAudioProcessor.runFramesFrom s noise i fuel l).1) = voiceIds l := by
  intro fuel
  induction fuel with
  | zero => intro i l; rfl
  | succ n ih =>
    intro i l
    rw [KSAudioProcessor.runFramesFrom]
    dsimp only
    rw [ih, KSAudioProcessor.stepFrame,
        stepVoicesWith_ids _ (fun j v => KSAudioProcessor.stepVoice_noteStopId s _ v)]

theorem KSAudioProcessor.runFramesFrom_releases (s : KSAudioProcessor.State)
    (noise : ℕ → ℕ → ℚ × ℚ) (hsus : s.sustain = true) :
    ∀ (fuel i : ℕ) (l : List Voice),
      voiceReleases ((KSAudioProcessor.runFramesFrom s noise i fuel l).1)
        = voiceReleases l := by
  intro fuel
  induction fuel with
  | zero => intro i l; rfl
  | succ n ih =>
    intro i l
    rw [KSAudioProcessor.runFramesFrom]
    dsimp only
    rw [ih, KSAudioProcessor.stepFrame]
    refine stepVoicesWith_releases _ (fun j v => ⟨KSAudioProcessor.stepVoice_noteStopId s _ v, ?_⟩) 0 l
    rw [KSAudioProcessor.stepVoice_releaseVolume]
    simp [hsus]

theorem voiceReleases_filter (l : List Voice) :
    voiceReleases (l.filter (fun v => ¬ v.releaseVolume = 0))
      = (voiceReleases l).filter (fun p => ¬ p.2 = 0) := by
  induction l with
  | nil => rfl
  | cons v rest ih =>
    simp only [voiceReleases, List.map_cons, List.filter_cons, decide_not] at ih ⊢
    by_cases h : v.releaseVolume = 0
    · simp [h, ih]
    · simp [h, ih]

theorem filter_not_length (l : List Voice) :
    (l.filter (fun v => ¬ v.releaseVolume = 0)).length
      + (l.filter (fun v => v.releaseVolume = 0)).length = l.length := by
  induction l with
  | nil => rfl
  | cons v rest ih =>
    simp only [List.filter_cons, decide_not] at ih ⊢
    by_cases h : v.releaseVolume = 0
    · simp [h]
      omega
    · simp [h]
      omega

theorem KSAudioProcessor.play_pool_sum (sr : ℚ) (s : KSAudioProcessor.State)
    (id : String) (f v : ℚ)
    (h : s.polyphonyHolder.length + s.buffers.length = 16) :
    (KSAudioProcessor.play sr s id f v).polyphonyHolder.length
      + (KSAudioProcessor.play sr s id f v).buffers.length = 16 := by
  rw [KSAudioProcessor.play]
  try dsimp only
  cases hre : retriggerFirst id
      (fun w => retriggered w (factorOf f * sr / f) (factorOf f) v) s.polyphonyHolder with
  | some holder =>
    try dsimp only
    rw [retriggerFirst_length id _ _ _ hre]
    exact h
  | none =>
    try dsimp only
    split
    · cases hbuf : s.buffers.getLast? with
      | some b =>
        try dsimp only
        have hne : s.buffers ≠ [] := by
          intro hnil
          rw [hnil] at hbuf
          exact absurd hbuf (by simp)
        have hpos : 0 < s.buffers.length := List.length_pos.mpr hne
        simp only [List.length_append, List.length_cons, List.length_nil,
          List.length_dropLast]
        omega
      | none => exact h
    · exact h

theorem KSAudioProcessor.applyCmd_pool_sum (sr : ℚ) (s : KSAudioProcessor.State)
    (c : KSAudioProcessor.Cmd)
    (h : s.polyphonyHolder.length + s.buffers.length = 16) :
    ((KSAudioProcessor.applyCmd sr s c).polyphonyHolder).length
      + ((KSAudioProcessor.applyCmd sr s c).buffers).length = 16 := by
  cases c with
  | play id f v => exact KSAudioProcessor.play_pool_sum sr s id f v h
  | stop id =>
    have hlen : (stopFirst id s.polyphonyHolder).length = s.polyphonyHolder.length := by
      have h1 := stopFirst_ids id s.polyphonyHolder
      have h2 : (voiceIds (stopFirst id s.polyphonyHolder)).length
          = (voiceIds s.polyphonyHolder).length := by rw [h1]
      simpa [voiceIds] using h2
    simp only [KSAudioProcessor.applyCmd, KSAudioProcessor.stop]
    try dsimp only
    rw [hlen]
    exact h
  | sustain val =>
    simp only [KSAudioProcessor.applyCmd, KSAudioProcessor.setSustain]
    split <;> exact h
  | setVolume q => exact h
  | process n noise =>
    simp only [KSAudioProcessor.applyCmd, KSAudioProcessor.process]
    try dsimp only
    have hlen := KSAudioProcessor.runFramesFrom_length s noise n 0 s.polyphonyHolder
    have hpart := filter_not_length
      ((KSAudioProcessor.runFramesFrom s noise 0 n s.polyphonyHolder).1)
    simp only [List.length_append, List.length_map, List.length_reverse]
    omega

theorem KSAudioProcessor.run_pool (sr : ℚ) (cmds : List KSAudioProcessor.Cmd) :
    ((KSAudioProcessor.run sr cmds).polyphonyHolder).length
      + ((KSAudioProcessor.run sr cmds).buffers).length = 16 := by
  rw [KSAudioProcessor.run]
  have main : ∀ (l : List KSAudioProcessor.Cmd) (s : KSAudioProcessor.State),
      s.polyphonyHolder.length + s.buffers.length = 16 →
      ((l.foldl (KSAudioProcessor.applyCmd sr) s).polyphonyHolder).length
        + ((l.foldl (KSAudioProcessor.applyCmd sr) s).buffers).length = 16 := by
    intro l
    induction l with
    | nil => intro s h; exact h
    | cons c rest ih =>
      intro s h
      rw [List.foldl_cons]
      exact ih _ (KSAudioProcessor.applyCmd_pool_sum sr s c h)
  refine main cmds KSAudioProcessor.init ?_
  simp only [KSAudioProcessor.init, List.length_replicate, List.length_nil]

theorem KSAudioProcessor.play_inadmissible (sr : ℚ) (st : KSAudioProcessor.State)
    (id : String) (f v : ℚ)
    (hid : id ∉ voiceIds st.polyphonyHolder)
    (hcap : ¬ factorOf f * sr / f < 2048 ∨ st.buffers = []) :
    KSAudioProcessor.play sr st id f v = st := by
  rw [KSAudioProcessor.play]
  try dsimp only
  rw [retriggerFirst_none_of_not_mem id _ st.polyphonyHolder hid]
  try dsimp only
  rcases hcap with hcap | hcap
  · rw [if_neg hcap]
  · split
    · rw [hcap]
      rfl
    · rfl

/-- Claim C5: the engine never holds more than 16 voices.  The pool starts
as 16 pre-allocated 2048-sample buffers; in every reachable state
`active + free = 16` (so at most 16 voices); a `play` with a new noteId and
an over-long period (`periodN ≥ 2048`) or an empty pool is a silent no-op;
in particular, with 16 voices active the pool is empty, so a 17th
distinct-id play changes nothing and the count stays 16. -/
theorem C5_voice_pool_capacity (sr : ℚ) (cmds : List KSAudioProcessor.Cmd)
    (id : String) (f v : ℚ)
    (h1 : id ∉ voiceIds ((KSAudioProcessor.run sr cmds).polyphonyHolder))
    (h2 : ((KSAudioProcessor.run sr cmds).polyphonyHolder).length = 16) :
    (∀ cmds' : List KSAudioProcessor.Cmd,
        ((KSAudioProcessor.run sr cmds').polyphonyHolder).length
          + ((KSAudioProcessor.run sr cmds').buffers).length = 16
        ∧ ((KSAudioProcessor.run sr cmds').polyphonyHolder).length ≤ 16)
    ∧ (KSAudioProcessor.run sr cmds).buffers = []
    ∧ KSAudioProcessor.play sr (KSAudioProcessor.run sr cmds) id f v
        = KSAudioProcessor.run sr cmds
    ∧ ((KSAudioProcessor.play sr (KSAudioProcessor.run sr cmds) id f v).polyphonyHolder).length
        = 16
    ∧ (∀ (st : KSAudioProcessor.State) (id' : String) (f' v' : ℚ),
        id' ∉ voiceIds st.polyphonyHolder →
        (¬ factorOf f' * sr / f' < 2048 ∨ st.buffers = []) →
        KSAudioProcessor.play sr st id' f' v' = st) := by
  have hsum := KSAudioProcessor.run_pool sr cmds
  have hempty : (KSAudioProcessor.run sr cmds).buffers = [] := by
    have hlen : ((KSAudioProcessor.run sr cmds).buffers).length = 0 := by omega
    exact List.length_eq_zero.mp hlen
  have hnoop : KSAudioProcessor.play sr (KSAudioProcessor.run sr cmds) id f v
      = KSAudioProcessor.run sr cmds :=
    KSAudioProcessor.play_inadmissible sr _ id f v h1 (Or.inr hempty)
  refine ⟨?_, hempty, hnoop, ?_, ?_⟩
  · intro cmds'
    have h := KSAudioProcessor.run_pool sr cmds'
    exact ⟨h, by omega⟩
  · rw [hnoop]
    exact h2
  · intro st id' f' v' ha hb
    exact KSAudioProcessor.play_inadmissible sr st id' f' v' ha hb

/-- Witness for C5's theorem: 16 voices filled, then a 17th distinct id. -/
theorem C5_witness :
    (∀ cmds' : List KSAudioProcessor.Cmd,
        ((KSAudioProcessor.run 2048 cmds').polyphonyHolder).length
          + ((KSAudioProcessor.run 2048 cmds').buffers).length = 16
        ∧ ((KSAudioProcessor.run 2048 cmds').polyphonyHolder).length ≤ 16)
    ∧ (KSAudioProcessor.run 2048 demoFillCmds).buffers = []
    ∧ KSAudioProcessor.play 2048 (KSAudioProcessor.run 2048 demoFillCmds) "x" 1024 1
        = KSAudioProcessor.run 2048 demoFillCmds
    ∧ ((KSAudioProcessor.play 2048 (KSAudioProcessor.run 2048 demoFillCmds) "x" 1024 1).polyphonyHolder).length
        = 16
    ∧ (∀ (st : KSAudioProcessor.State) (id' : String) (f' v' : ℚ),
        id' ∉ voiceIds st.polyphonyHolder →
        (¬ factorOf f' * 2048 / f' < 2048 ∨ st.buffers = []) →
        KSAudioProcessor.play 2048 st id' f' v' = st) :=
  C5_voice_pool_capacity 2048 demoFillCmds "x" 1024 1 (by decide) (by decide)

theorem retriggerFirst_split (id : String) (upd : Voice → Voice) :
    ∀ (pre : List Voice) (v0 : Voice) (post : List Voice),
      v0.noteStopId = id → (∀ w ∈ pre, w.noteStopId ≠ id) →
      retriggerFirst id upd (pre ++ v0 :: post) = some (pre ++ upd v0 :: post) := by
  intro pre
  induction pre with
  | nil =>
    intro v0 post hid hpre
    simp [retriggerFirst, hid]
  | cons w rest ih =>
    intro v0 post hid hpre
    have hw : w.noteStopId ≠ id := hpre w (by simp)
    simp only [List.cons_append, retriggerFirst, if_neg hw, List.append_eq]
    rw [ih v0 post hid (fun x hx => hpre x (by simp [hx]))]
    rfl

/-- Claim C6: a `play` whose noteId matches an active voice retriggers that
voice in place — state back to PLAYING, excitation re-armed, phase
(`periodIndex`) reset to 0, `releaseVolume` reset to 1.0, and `volume`,
`periodN` and `inc` recomputed from the new frequency and volume — leaving
every other voice untouched, creating no voice, and acquiring no pool
buffer. -/
theorem C6_retrigger_in_place (sr : ℚ) (s : KSAudioProcessor.State) (id : String)
    (f v : ℚ) (pre post : List Voice) (v0 : Voice)
    (hsplit : s.polyphonyHolder = pre ++ v0 :: post)
    (hid : v0.noteStopId = id)
    (hpre : ∀ w ∈ pre, w.noteStopId ≠ id) :
    KSAudioProcessor.play sr s id f v
      = { s with polyphonyHolder :=
            pre ++ retriggered v0 (factorOf f * sr / f) (factorOf f) v :: post }
    ∧ (KSAudioProcessor.play sr s id f v).buffers = s.buffers
    ∧ ((KSAudioProcessor.play sr s id f v).polyphonyHolder).length
        = (s.polyphonyHolder).length
    ∧ (retriggered v0 (factorOf f * sr / f) (factorOf f) v).periodIndex = 0
    ∧ (retriggered v0 (factorOf f * sr / f) (factorOf f) v).feedNoise = true
    ∧ (retriggered v0 (factorOf f * sr / f) (factorOf f) v).releaseVolume = 1
    ∧ (retriggered v0 (factorOf f * sr / f) (factorOf f) v).volume = v
    ∧ (retriggered v0 (factorOf f * sr / f) (factorOf f) v).phase = .PLAYING
    ∧ (retriggered v0 (factorOf f * sr / f) (factorOf f) v).periodN
        = ⌊factorOf f * sr / f⌋
    ∧ (retriggered v0 (factorOf f * sr / f) (factorOf f) v).inc
        = factorOf f * (⌊factorOf f * sr / f⌋ : ℚ) / (factorOf f * sr / f)
    ∧ (retriggered v0 (factorOf f * sr / f) (factorOf f) v).noteStopId
        = v0.noteStopId := by
  have hmain : KSAudioProcessor.play sr s id f v
      = { s with polyphonyHolder :=
            pre ++ retriggered v0 (factorOf f * sr / f) (factorOf f) v :: post } := by
    rw [KSAudioProcessor.play]
    try dsimp only
    rw [hsplit, retriggerFirst_split id _ pre v0 post hid hpre]
  refine ⟨hmain, ?_, ?_, rfl, rfl, rfl, rfl, rfl, rfl, rfl, rfl⟩
  · rw [hmain]
  · rw [hmain, hsplit]
    simp

/-- Witness for C6's theorem: retrigger the one active voice at a new
frequency and volume. -/
theorem C6_witness :
    KSAudioProcessor.play 2048 (KSAudioProcessor.run 2048 [KSAudioProcessor.Cmd.play "a" 1024 1]) "a" 512 (1/2)
      = { KSAudioProcessor.run 2048 [KSAudioProcessor.Cmd.play "a" 1024 1] with
          polyphonyHolder :=
            [] ++ retriggered demoVoice (factorOf 512 * 2048 / 512) (factorOf 512) (1/2) :: [] }
    ∧ (KSAudioProcessor.play 2048 (KSAudioProcessor.run 2048 [KSAudioProcessor.Cmd.play "a" 1024 1]) "a" 512 (1/2)).buffers
        = (KSAudioProcessor.run 2048 [KSAudioProcessor.Cmd.play "a" 1024 1]).buffers
    ∧ ((KSAudioProcessor.play 2048 (KSAudioProcessor.run 2048 [KSAudioProcessor.Cmd.play "a" 1024 1]) "a" 512 (1/2)).polyphonyHolder).length
        = ((KSAudioProcessor.run 2048 [KSAudioProcessor.Cmd.play "a" 1024 1]).polyphonyHolder).length
    ∧ (retriggered demoVoice (factorOf 512 * 2048 / 512) (factorOf 512) (1/2)).periodIndex = 0
    ∧ (retriggered demoVoice (factorOf 512 * 2048 / 512) (factorOf 512) (1/2)).feedNoise = true
    ∧ (retriggered demoVoice (factorOf 512 * 2048 / 512) (factorOf 512) (1/2)).releaseVolume = 1
    ∧ (retriggered demoVoice (factorOf 512 * 2048 / 512) (factorOf 512) (1/2)).volume = 1/2
    ∧ (retriggered demoVoice (factorOf 512 * 2048 / 512) (factorOf 512) (1/2)).phase = .PLAYING
    ∧ (retriggered demoVoice (factorOf 512 * 2048 / 512) (factorOf 512) (1/2)).periodN
        = ⌊factorOf 512 * 2048 / 512⌋
    ∧ (retriggered demoVoice (factorOf 512 * 2048 / 512) (factorOf 512) (1/2)).inc
        = factorOf 512 * ((⌊factorOf 512 * 2048 / 512⌋ : ℤ) : ℚ) / (factorOf 512 * 2048 / 512)
    ∧ (retriggered demoVoice (factorOf 512 * 2048 / 512) (factorOf 512) (1/2)).noteStopId
        = demoVoice.noteStopId :=
  C6_retrigger_in_place 2048 (KSAudioProcessor.run 2048 [KSAudioProcessor.Cmd.play "a" 1024 1])
    "a" 512 (1/2) [] [] demoVoice (by rfl) (by rfl) (by simp)

theorem KSAudioProcessor.process_releases (s : KSAudioProcessor.State) (n : ℕ)
    (noise : ℕ → ℕ → ℚ × ℚ) (hsus : s.sustain = true) :
    voiceReleases ((KSAudioProcessor.process s n noise).1.polyphonyHolder)
      = (voiceReleases s.polyphonyHolder).filter (fun p => ¬ p.2 = 0) := by
  rw [KSAudioProcessor.process]
  try dsimp only
  rw [voiceReleases_filter, KSAudioProcessor.runFramesFrom_releases s noise hsus]

theorem KSAudioProcessor.process_sustain (s : KSAudioProcessor.State) (n : ℕ)
    (noise : ℕ → ℕ → ℚ × ℚ) :
    (KSAudioProcessor.process s n noise).1.sustain = s.sustain := rfl

theorem KSAudioProcessor.processBlocks_mem (blocks : List (ℕ × (ℕ → ℕ → ℚ × ℚ))) :
    ∀ s : KSAudioProcessor.State, s.sustain = true →
      ∀ idrv : String × ℚ, idrv ∈ voiceReleases s.polyphonyHolder → idrv.2 ≠ 0 →
        idrv ∈ voiceReleases ((KSAudioProcessor.processBlocks s blocks).polyphonyHolder) := by
  induction blocks with
  | nil => intro s _ idrv hmem _; exact hmem
  | cons b rest ih =>
    intro s hsus idrv hmem hne
    rw [KSAudioProcessor.processBlocks]
    refine ih _ ((KSAudioProcessor.process_sustain s b.1 b.2).trans hsus) idrv ?_ hne
    rw [KSAudioProcessor.process_releases s b.1 b.2 hsus, List.mem_filter]
    exact ⟨hmem, by simpa using hne⟩

/-- Claim C7: `releaseVolume` decays by the release rate per sample exactly
when the voice is RELEASING and the global `sustain` flag is off, clamped at
0 (and decay always continues from the current value, never restarts); while
`sustain` is on, every surviving voice's release gain — in particular a
stopped voice's 1.0 — is carried unchanged through one `process` block and
through any number of blocks; `stop` itself never changes release gains. -/
theorem C7_sustain_gates_release (s : KSAudioProcessor.State)
    (blocks : List (ℕ × (ℕ → ℕ → ℚ × ℚ))) (hsus : s.sustain = true) :
    (∀ idrv : String × ℚ, idrv ∈ voiceReleases s.polyphonyHolder → idrv.2 ≠ 0 →
        idrv ∈ voiceReleases ((KSAudioProcessor.processBlocks s blocks).polyphonyHolder))
    ∧ (∀ (n : ℕ) (noise : ℕ → ℕ → ℚ × ℚ),
        voiceReleases ((KSAudioProcessor.process s n noise).1.polyphonyHolder)
          = (voiceReleases s.polyphonyHolder).filter (fun p => ¬ p.2 = 0))
    ∧ (∀ (p : KSAudioProcessor.State) (r : ℚ × ℚ) (v : Voice),
        ((KSAudioProcessor.stepVoice p r v).1).releaseVolume
          = if v.phase = .RELEASING ∧ p.sustain = false
            then (if v.releaseVolume - p.releaseVolume < 0 then 0
                  else v.releaseVolume - p.releaseVolume)
            else v.releaseVolume)
    ∧ (∀ (st : KSAudioProcessor.State) (id : String),
        voiceReleases ((KSAudioProcessor.stop st id).polyphonyHolder)
          = voiceReleases st.polyphonyHolder) := by
  refine ⟨?_, ?_, ?_, ?_⟩
  · intro idrv h1 h2
    exact KSAudioProcessor.processBlocks_mem blocks s hsus idrv h1 h2
  · intro n noise
    exact KSAudioProcessor.process_releases s n noise hsus
  · intro p r v
    exact KSAudioProcessor.stepVoice_releaseVolume p r v
  · intro st id
    exact stopFirst_releases id st.polyphonyHolder

/-- Witness for C7's theorem: one releasing voice at gain 1.0 under
sustain, across two render blocks. -/
theorem C7_witness :
    (∀ idrv : String × ℚ, idrv ∈ voiceReleases demoSustainState.polyphonyHolder →
        idrv.2 ≠ 0 →
        idrv ∈ voiceReleases ((KSAudioProcessor.processBlocks demoSustainState
          [(2, fun _ _ => (1, 0)), (2, fun _ _ => (1, 0))]).polyphonyHolder))
    ∧ (∀ (n : ℕ) (noise : ℕ → ℕ → ℚ × ℚ),
        voiceReleases ((KSAudioProcessor.process demoSustainState n noise).1.polyphonyHolder)
          = (voiceReleases demoSustainState.polyphonyHolder).filter (fun p => ¬ p.2 = 0))
    ∧ (∀ (p : KSAudioProcessor.State) (r : ℚ × ℚ) (v : Voice),
        ((KSAudioProcessor.stepVoice p r v).1).releaseVolume
          = if v.phase = .RELEASING ∧ p.sustain = false
            then (if v.releaseVolume - p.releaseVolume < 0 then 0
                  else v.releaseVolume - p.releaseVolume)
            else v.releaseVolume)
    ∧ (∀ (st : KSAudioProcessor.State) (id : String),
        voiceReleases ((KSAudioProcessor.stop st id).polyphonyHolder)
          = voiceReleases st.polyphonyHolder) :=
  C7_sustain_gates_release demoSustainState
    [(2, fun _ _ => (1, 0)), (2, fun _ _ => (1, 0))] (by rfl)

theorem KSAudioProcessor.play_nodup (sr : ℚ) (s : KSAudioProcessor.State)
    (id : String) (f v : ℚ)
    (h : (voiceIds s.polyphonyHolder).Nodup) :
    (voiceIds ((KSAudioProcessor.play sr s id f v).polyphonyHolder)).Nodup := by
  rw [KSAudioProcessor.play]
  try dsimp only
  cases hre : retriggerFirst id
      (fun w => retriggered w (factorOf f * sr / f) (factorOf f) v) s.polyphonyHolder with
  | some holder =>
    try dsimp only
    rw [retriggerFirst_ids id
      (fun w => retriggered w (factorOf f * sr / f) (factorOf f) v)
      (fun w => rfl) _ holder hre]
    exact h
  | none =>
    have hid : id ∉ voiceIds s.polyphonyHolder := retriggerFirst_none_mem id _ _ hre
    try dsimp only
    split
    · cases hbuf : s.buffers.getLast? with
      | some b =>
        try dsimp only
        simp only [voiceIds, List.map_append, List.map_cons, List.map_nil]
        have hdisj : (s.polyphonyHolder.map (fun w => w.noteStopId)).Disjoint [id] := by
          intro a ha hb
          simp only [List.mem_singleton] at hb
          subst hb
          exact hid ha
        exact List.Nodup.append h (List.nodup_singleton id) hdisj
      | none => exact h
    · exact h

theorem KSAudioProcessor.applyCmd_nodup (sr : ℚ) (s : KSAudioProcessor.State)
    (c : KSAudioProcessor.Cmd)
    (h : (voiceIds s.polyphonyHolder).Nodup) :
    (voiceIds ((KSAudioProcessor.applyCmd sr s c).polyphonyHolder)).Nodup := by
  cases c with
  | play id f v => exact KSAudioProcessor.play_nodup sr s id f v h
  | stop id =>
    show (voiceIds (stopFirst id s.polyphonyHolder)).Nodup
    rw [stopFirst_ids]
    exact h
  | sustain val =>
    simp only [KSAudioProcessor.applyCmd, KSAudioProcessor.setSustain]
    split <;> exact h
  | setVolume q => exact h
  | process n noise =>
    show (voiceIds ((KSAudioProcessor.process s n noise).1.polyphonyHolder)).Nodup
    rw [KSAudioProcessor.process]
    try dsimp only
    have hframes : (voiceIds
        ((KSAudioProcessor.runFramesFrom s noise 0 n s.polyphonyHolder).1)).Nodup := by
      rw [KSAudioProcessor.runFramesFrom_ids s noise n 0 s.polyphonyHolder]
      exact h
    refine List.Nodup.sublist ?_ hframes
    exact List.Sublist.map _ (List.filter_sublist _)

/-- Claim C10: in every state reachable from the initial state by any
sequence of play, stop, sustain, setVolume and process steps, the active
voice list has at most one voice per noteStopId: retriggering never pushes,
a fresh play pushes exactly the one new id, and stop and the end-of-block
sweep never add voices. -/
theorem C10_at_most_one_voice_per_id (sr : ℚ) (cmds : List KSAudioProcessor.Cmd) :
    (voiceIds ((KSAudioProcessor.run sr cmds).polyphonyHolder)).Nodup := by
  rw [KSAudioProcessor.run]
  have main : ∀ (l : List KSAudioProcessor.Cmd) (s : KSAudioProcessor.State),
      (voiceIds s.polyphonyHolder).Nodup →
      (voiceIds ((l.foldl (KSAudioProcessor.applyCmd sr) s).polyphonyHolder)).Nodup := by
    intro l
    induction l with
    | nil => intro s h; exact h
    | cons c rest ih =>
      intro s h
      rw [List.foldl_cons]
      exact ih _ (KSAudioProcessor.applyCmd_nodup sr s c h)
  refine main cmds KSAudioProcessor.init ?_
  simp [KSAudioProcessor.init, voiceIds]

theorem getD_set_same (l : List ℚ) :
    ∀ (n : ℕ) (a : ℚ), n < l.length → (l.set n a).getD n 0 = a := by
  induction l with
  | nil => intro n a h; exact absurd h (by simp)
  | cons x rest ih =>
    intro n a h
    cases n with
    | zero => rfl
    | succ m =>
      show (rest.set m a).getD m 0 = a
      exact ih m a (Nat.lt_of_succ_lt_succ h)

/-- Claim C8, counterexample.  The claim puts the noise burst in the FIRST
`attack` fraction of the period and the buffer fold after it; the code does
the opposite (`periodIndex > periodN * (1 - attack)` selects the noise
branch).  With the default `attack = ½` and a voice at post-advance phase 10
of a 100-sample period — inside the first attack fraction, where the claim
demands the noise write — the engine folds the (all-zero) buffer and
produces `current = 0`, while the claim's noise write with draws `(1, 0)`
would produce `9/10`. -/
theorem C8_counterexample :
    (10 : ℚ) < 100 * ScriptProcessorFallback.init.attack
    ∧ ((ScriptProcessorFallback.stepVoice ScriptProcessorFallback.init (1, 0)
        { noteStopId := "c", periodIndex := 9, periodN := 100,
          period := List.replicate 2048 0, feedNoise := true, previous := 0,
          current := 0, inc := 1, volume := 1, phase := .PLAYING,
          releaseVolume := 1 }).1).current = 0
    ∧ ((0 : ℚ) + ((1 / ScriptProcessorFallback.init.noiseDamp) * ((1 : ℚ) - 0) - 0)
          * (ScriptProcessorFallback.init.damp * ScriptProcessorFallback.init.noiseDamp))
        * ScriptProcessorFallback.init.damp2 = 9/10
    ∧ (0 : ℚ) ≠ 9/10 :=
  ⟨by decide, by decide, by decide, by decide⟩

/-- Claim C8 (amended: the noise/fold regions are the reverse of the claim).
In the regeneration step (truncated phase index changed, excitation still
active, no wraparound this sample), the engine writes uniform noise scaled
by `1/noiseDamp` and filters with effective damping `damp * noiseDamp`
exactly when the post-advance phase lies in the LAST `attack` fraction of
the period (`periodIndex > periodN * (1 - attack)`); otherwise — in the
first `1 - attack` of the period, excitation still active — it folds the
buffer, reading `buffer[periodN - index]` in place of the default feedback
read.  In both branches the filtered result is written back at the index
and `previous` takes the old `current`. -/
theorem C8_excitation_regions (p : ScriptProcessorFallback.State) (r : ℚ × ℚ)
    (v : Voice)
    (hfeed : v.feedNoise = true)
    (hnowrap : v.periodIndex + v.inc < (v.periodN : ℚ))
    (hgen : v.periodIndex + v.inc - (⌊v.periodIndex + v.inc⌋ : ℚ) < v.inc)
    (hlen : (⌊v.periodIndex + v.inc⌋ : ℤ).toNat < v.period.length) :
    ((ScriptProcessorFallback.stepVoice p r v).1).previous = v.current
    ∧ ((ScriptProcessorFallback.stepVoice p r v).1).current
        = (if (v.periodN : ℚ) * (1 - p.attack) < v.periodIndex + v.inc
           then (v.current + ((1 / p.noiseDamp) * (r.1 - r.2) - v.current)
                  * (p.damp * p.noiseDamp)) * p.damp2
           else (v.current
                  + (v.period.getD ((v.periodN - ⌊v.periodIndex + v.inc⌋).toNat) 0
                      - v.current) * p.damp) * p.damp2)
    ∧ ((ScriptProcessorFallback.stepVoice p r v).1).period
        = v.period.set (⌊v.periodIndex + v.inc⌋ : ℤ).toNat
            ((ScriptProcessorFallback.stepVoice p r v).1).current := by
  have hwrapneg : ¬ ((v.periodN : ℚ) ≤ v.periodIndex + v.inc) := not_le.mpr hnowrap
  rw [ScriptProcessorFallback.stepVoice]
  dsimp only
  split_ifs
  all_goals first
    | (exact absurd (by assumption) hwrapneg)
    | (exact absurd hgen (by assumption))
    | (exact absurd hfeed (by assumption))
    | (refine ⟨by rfl, ?_, ?_⟩
       · rw [getD_set_same _ _ _ (by simpa using hlen)]
       · rw [getD_set_same _ _ _ (by simpa using hlen), List.set_set])

/-- Witness for C8's theorem at a concrete voice whose post-advance phase
(60 of 100) lies in the noise region. -/
theorem C8_witness :
    ((ScriptProcessorFallback.stepVoice ScriptProcessorFallback.init (1, 0) demoNoiseVoice).1).previous
        = demoNoiseVoice.current
    ∧ ((ScriptProcessorFallback.stepVoice ScriptProcessorFallback.init (1, 0) demoNoiseVoice).1).current
        = (if (demoNoiseVoice.periodN : ℚ) * (1 - ScriptProcessorFallback.init.attack)
              < demoNoiseVoice.periodIndex + demoNoiseVoice.inc
           then (demoNoiseVoice.current + ((1 / ScriptProcessorFallback.init.noiseDamp)
                  * (((1 : ℚ), (0 : ℚ)).1 - ((1 : ℚ), (0 : ℚ)).2) - demoNoiseVoice.current)
                  * (ScriptProcessorFallback.init.damp * ScriptProcessorFallback.init.noiseDamp))
                * ScriptProcessorFallback.init.damp2
           else (demoNoiseVoice.current
                  + (demoNoiseVoice.period.getD
                      ((demoNoiseVoice.periodN
                        - ⌊demoNoiseVoice.periodIndex + demoNoiseVoice.inc⌋).toNat) 0
                      - demoNoiseVoice.current) * ScriptProcessorFallback.init.damp)
                * ScriptProcessorFallback.init.damp2)
    ∧ ((ScriptProcessorFallback.stepVoice ScriptProcessorFallback.init (1, 0) demoNoiseVoice).1).period
        = demoNoiseVoice.period.set (⌊demoNoiseVoice.periodIndex + demoNoiseVoice.inc⌋ : ℤ).toNat
            ((ScriptProcessorFallback.stepVoice ScriptProcessorFallback.init (1, 0) demoNoiseVoice).1).current :=
  C8_excitation_regions ScriptProcessorFallback.init (1, 0) demoNoiseVoice
    (by rfl) (by decide) (by decide)
    (by simp only [demoNoiseVoice, List.length_replicate]; decide)

theorem ScriptProcessorFallback.applySetParams_eq (s : ScriptProcessorFallback.State)
    (pp : ParamsPatch) :
    ScriptProcessorFallback.applySetParams s pp
      = { s with damp := pp.damp.getD s.damp
                 damp2 := pp.damp2.getD s.damp2
                 noiseDamp := pp.noiseDamp.getD s.noiseDamp
                 attack := pp.attack.getD s.attack
                 releaseVolume := pp.release.getD s.releaseVolume } := by
  rcases pp with ⟨d, d2, nd, a, rel⟩
  cases d <;> cases d2 <;> cases nd <;> cases a <;> cases rel <;> rfl

/-- Claim C9 (the claim is right and the worklet code is wrong): a
`setParams` message should apply exactly its present fields.  The
ScriptProcessor fallback does exactly that — present fields replace the
closure parameters, absent fields, `sustain`, `masterVolume`, the pool and
all voice state are untouched — but the AudioWorklet processor's
`handleMessage` switch has no `setParams` case, so the engine that renders
audio when AudioWorklet is available drops every such message unchanged
(e.g. `damp` stays 0.9 after `setParams{damp: 0.7}`), contradicting
`types/index.ts` (which lists `setParams` as an `AudioWorkletMessage`), the
parameter editor that posts it, and the fallback that mirrors the worklet. -/
theorem C9_setParams_honored_only_by_fallback :
    (∀ (sr : ℚ) (s : KSAudioProcessor.State) (params : Option ParamsPatch),
        KSAudioProcessor.handleMessage sr s (.setParams params) = s)
    ∧ KSAudioProcessor.init.damp = 9/10
    ∧ (KSAudioProcessor.handleMessage 44100 KSAudioProcessor.init
         (.setParams (some { damp := some (7/10), damp2 := none, noiseDamp := none,
                             attack := none, release := none }))).damp = 9/10
    ∧ (∀ (sr : ℚ) (s : ScriptProcessorFallback.State) (pp : ParamsPatch),
        ScriptProcessorFallback.handleMessage sr s (.setParams (some pp))
          = { s with damp := pp.damp.getD s.damp
                     damp2 := pp.damp2.getD s.damp2
                     noiseDamp := pp.noiseDamp.getD s.noiseDamp
                     attack := pp.attack.getD s.attack
                     releaseVolume := pp.release.getD s.releaseVolume })
    ∧ (ScriptProcessorFallback.handleMessage 44100 ScriptProcessorFallback.init
         (.setParams (some { damp := some (7/10), damp2 := none, noiseDamp := none,
                             attack := none, release := none }))).damp = 7/10 := by
  refine ⟨fun sr s params => rfl, rfl, by decide, ?_, by decide⟩
  intro sr s pp
  exact ScriptProcessorFallback.applySetParams_eq s pp
